import Mathlib

/-!
Verification of the intent-driven hook engine (Roo Code governance middleware).

The repository ships only the test suite (`src/hooks/__tests__/HookEngine.test.ts`),
the prompt generator (`src/hooks/IntentSystemPrompt.ts`) and design documents; the
engine implementation (`HookEngine.ts`, `IntentStore.ts`, `TraceLogger.ts`) is not
part of the source tree.  The definitions below therefore shallowly embed the
engine as specified: each such definition is marked `Modelled from the spec:` and
follows the contracts of the specification (sections 3, 4 and 7) together with the
behaviour pinned down by the shipped test suite.  `getIntentEnforcementPrompt` is
translated directly from `IntentSystemPrompt.ts`, which is present in the source.

File layout: definitions first (string utilities, SHA-256, glob matching, the
stores and the engine), then the supporting lemmas and the claim theorems.
-/

/-! ## Basic string utilities -/

/-- Boolean test: the needle `n` stands at the head of the haystack `h`. -/
def leadsWith : List Char → List Char → Bool
  | [], _ => true
  | _ :: _, [] => false
  | a :: as, b :: bs => a = b && leadsWith as bs

/-- Boolean test: the needle `n` occurs contiguously somewhere inside `h`. -/
def occursInL (n : List Char) : List Char → Bool
  | [] => n.isEmpty
  | c :: t => leadsWith n (c :: t) || occursInL n t

/-- Substring test on strings: `needle` occurs contiguously inside `hay`. -/
def hasSub (hay needle : String) : Bool :=
  occursInL needle.data hay.data

/-- The string `s` starts with the string `p`. -/
def strStarts (s p : String) : Bool :=
  leadsWith p.data s.data

/-- Join a list of strings with a separator, exactly like `Array.join` in the
source language: empty list gives the empty string, no trailing separator. -/
def joinStrings (sep : String) : List String → String
  | [] => ""
  | [x] => x
  | x :: y :: xs => x ++ sep ++ joinStrings sep (y :: xs)

/-! ## Glob matching (ScopeMatcher)

Modelled from the spec (section 4.4); `ScopeMatcher` is not present in the
source tree.  Glob semantics: `**` matches zero or more whole path segments,
`*` matches zero or more characters within one segment, `?` matches exactly one
character within a segment, everything else matches literally, and a path is in
scope iff it matches at least one glob of the set. -/

/-- Split a character list into path segments at every forward slash. -/
def splitSeg : List Char → List (List Char)
  | [] => [[]]
  | c :: t =>
    if c = '/' then [] :: splitSeg t
    else
      match splitSeg t with
      | [] => [[c]]
      | s :: ss => (c :: s) :: ss

/-- Match one glob segment pattern against one path segment, with explicit
structural fuel so the function reduces inside the kernel.  `*` matches zero or
more characters, `?` exactly one, others literally.  Every recursive call
shrinks `pattern.length + segment.length`, so fuel
`pattern.length + segment.length + 1` is always enough. -/
def matchSegF : Nat → List Char → List Char → Bool
  | 0, _, _ => false
  | _ + 1, [], [] => true
  | _ + 1, [], _ :: _ => false
  | f + 1, '*' :: ps, [] => matchSegF f ps []
  | _ + 1, _ :: _, [] => false
  | f + 1, '*' :: ps, c :: cs => matchSegF f ps (c :: cs) || matchSegF f ('*' :: ps) cs
  | f + 1, '?' :: ps, _ :: cs => matchSegF f ps cs
  | f + 1, p :: ps, c :: cs => p = c && matchSegF f ps cs

/-- Match one glob segment pattern against one path segment. -/
def matchSeg (p s : List Char) : Bool :=
  matchSegF (p.length + s.length + 1) p s

/-- Match a list of glob segments against a list of path segments, with
structural fuel; a `**` segment absorbs zero or more whole path segments. -/
def matchSegsF : Nat → List (List Char) → List (List Char) → Bool
  | 0, _, _ => false
  | _ + 1, [], [] => true
  | _ + 1, [], _ :: _ => false
  | f + 1, g :: gs, ss =>
    if g = ['*', '*'] then
      matchSegsF f gs ss ||
        (match ss with
         | [] => false
         | _ :: st => matchSegsF f (g :: gs) st)
    else
      match ss with
      | [] => false
      | s :: st => matchSeg g s && matchSegsF f gs st

/-- Match a list of glob segments against a list of path segments. -/
def matchSegs (g s : List (List Char)) : Bool :=
  matchSegsF (g.length + s.length + 1) g s

/-- Modelled from the spec: `ScopeMatcher.inScope`.  A path is in scope iff it
matches at least one glob of the set; the empty glob list admits no path. -/
def inScope (path : String) (globs : List String) : Bool :=
  globs.any fun g => matchSegs (splitSeg g.data) (splitSeg path.data)

/-! ## SHA-256

Modelled from the spec (section 4.3): a fingerprint is the string `sha256:`
followed by the lowercase hex digest of SHA-256 over the raw bytes on disk, or
the literal `ABSENT` when the path does not exist.  This is a complete
executable SHA-256 (FIPS 180-4) over byte lists, with 32-bit words represented
as `Nat` reduced modulo `2 ^ 32`. -/

/-- The 32-bit modulus. -/
def M32 : Nat := 4294967296

/-- Rotate a 32-bit word right by `n` bits. -/
def rotr32 (n x : Nat) : Nat := ((x >>> n) ||| (x <<< (32 - n))) % M32

/-- SHA-256 big sigma 0. -/
def bsig0 (x : Nat) : Nat := rotr32 2 x ^^^ rotr32 13 x ^^^ rotr32 22 x

/-- SHA-256 big sigma 1. -/
def bsig1 (x : Nat) : Nat := rotr32 6 x ^^^ rotr32 11 x ^^^ rotr32 25 x

/-- SHA-256 small sigma 0. -/
def ssig0 (x : Nat) : Nat := rotr32 7 x ^^^ rotr32 18 x ^^^ (x >>> 3)

/-- SHA-256 small sigma 1. -/
def ssig1 (x : Nat) : Nat := rotr32 17 x ^^^ rotr32 19 x ^^^ (x >>> 10)

/-- SHA-256 choice function (complement taken inside 32 bits). -/
def chF (x y z : Nat) : Nat := (x &&& y) ^^^ ((x ^^^ 4294967295) &&& z)

/-- SHA-256 majority function. -/
def majF (x y z : Nat) : Nat := (x &&& y) ^^^ (x &&& z) ^^^ (y &&& z)

/-- The 64 SHA-256 round constants. -/
def K256 : List Nat :=
  [1116352408, 1899447441, 3049323471, 3921009573, 961987163, 1508970993,
   2453635748, 2870763221, 3624381080, 310598401, 607225278, 1426881987,
   1925078388, 2162078206, 2614888103, 3248222580, 3835390401, 4022224774,
   264347078, 604807628, 770255983, 1249150122, 1555081692, 1996064986,
   2554220882, 2821834349, 2952996808, 3210313671, 3336571891, 3584528711,
   113926993, 338241895, 666307205, 773529912, 1294757372, 1396182291,
   1695183700, 1986661051, 2177026350, 2456956037, 2730485921, 2820302411,
   3259730800, 3345764771, 3516065817, 3600352804, 4094571909, 275423344,
   430227734, 506948616, 659060556, 883997877, 958139571, 1322822218,
   1537002063, 1747873779, 1955562222, 2024104815, 2227730452, 2361852424,
   2428436474, 2756734187, 3204031479, 3329325298]

/-- The SHA-256 initial hash state. -/
def H256 : List Nat :=
  [1779033703, 3144134277, 1013904242, 2773480762,
   1359893119, 2600822924, 528734635, 1541459225]

/-- Big-endian 8-byte encoding of a 64-bit length. -/
def be64 (n : Nat) : List Nat :=
  [(n >>> 56) % 256, (n >>> 48) % 256, (n >>> 40) % 256, (n >>> 32) % 256,
   (n >>> 24) % 256, (n >>> 16) % 256, (n >>> 8) % 256, n % 256]

/-- SHA-256 message padding: append `0x80`, zero bytes up to 56 mod 64, and the
big-endian bit length. -/
def sha256pad (msg : List Nat) : List Nat :=
  msg ++ 0x80 :: List.replicate ((120 - ((msg.length + 1) % 64)) % 64) 0 ++ be64 (msg.length * 8)

/-- Group bytes into big-endian 32-bit words. -/
def toWords : List Nat → List Nat
  | a :: b :: c :: d :: rest => (((a * 256 + b) * 256 + c) * 256 + d) :: toWords rest
  | _ => []

/-- Group a word list into blocks of sixteen words. -/
def chunksWords : List Nat → List (List Nat)
  | a1 :: a2 :: a3 :: a4 :: a5 :: a6 :: a7 :: a8 :: a9 :: a10 :: a11 :: a12 :: a13 :: a14 :: a15 :: a16 :: rest =>
    [a1, a2, a3, a4, a5, a6, a7, a8, a9, a10, a11, a12, a13, a14, a15, a16] :: chunksWords rest
  | _ => []

/-- Extend a 16-word block to the 64-word message schedule. -/
def extendSchedule (ws : List Nat) : List Nat :=
  (List.range 48).foldl
    (fun acc _ =>
      acc ++ [(ssig1 (acc.getD (acc.length - 2) 0) + acc.getD (acc.length - 7) 0 +
               ssig0 (acc.getD (acc.length - 15) 0) + acc.getD (acc.length - 16) 0) % M32])
    ws

/-- One SHA-256 compression round; the state is the eight working words. -/
def roundStep (st : List Nat) (wk : Nat × Nat) : List Nat :=
  match st with
  | [a, b, c, d, e, f, g, h] =>
    let t1 := (h + bsig1 e + chF e f g + wk.2 + wk.1) % M32
    let t2 := (bsig0 a + majF a b c) % M32
    [(t1 + t2) % M32, a, b, c, (d + t1) % M32, e, f, g]
  | st => st

/-- Compress one 16-word block into the running hash state. -/
def compressBlock (h : List Nat) (block : List Nat) : List Nat :=
  let w := extendSchedule block
  let fin := (w.zip K256).foldl roundStep h
  (h.zip fin).map fun p => (p.1 + p.2) % M32

/-- The eight 32-bit digest words of a byte message. -/
def sha256words (msg : List Nat) : List Nat :=
  (chunksWords (toWords (sha256pad msg))).foldl compressBlock H256

/-- Lowercase hex digit. -/
def hexChar (d : Nat) : Char := Char.ofNat (if d < 10 then 48 + d else 87 + d)

/-- Eight lowercase hex digits of one 32-bit word. -/
def wordHex (w : Nat) : List Char :=
  [hexChar ((w >>> 28) % 16), hexChar ((w >>> 24) % 16), hexChar ((w >>> 20) % 16),
   hexChar ((w >>> 16) % 16), hexChar ((w >>> 12) % 16), hexChar ((w >>> 8) % 16),
   hexChar ((w >>> 4) % 16), hexChar (w % 16)]

/-- Concatenate character lists. -/
def flattenChars : List (List Char) → List Char
  | [] => []
  | x :: t => x ++ flattenChars t

/-- Lowercase hex SHA-256 digest of a byte message. -/
def sha256hex (msg : List Nat) : String :=
  String.mk (flattenChars ((sha256words msg).map wordHex))

/-- File contents modelled as the code points of the stored string (equal to
the raw bytes for the ASCII contents exercised here). -/
def strBytes (s : String) : List Nat := s.data.map Char.toNat

/-! ## Data model: intents, registry, filesystem, freshness cache

All modelled from the spec (section 3); the implementing files are not in the
source tree. -/

/-- Modelled from the spec: an intent record of the registry
(`active_intents.yaml`). -/
structure Intent where
  id : String
  name : String
  status : String
  owned_scope : List String
  constraints : List String
  acceptance_criteria : List String
deriving DecidableEq, Repr

/-- Modelled from the spec: `IntentStore.getIntent` resolves an intent whose
id matches exactly, else null. -/
def getIntent (registry : List Intent) (id : String) : Option Intent :=
  registry.find? fun i => i.id = id

/-- Modelled from the spec: `IntentStore.listIntentIds` returns all ids in
registry order. -/
def listIntentIds (registry : List Intent) : List String :=
  registry.map fun i => i.id

/-- The workspace filesystem, modelled as an association list from
workspace-relative paths to file contents; `lookup` misses are absent files. -/
abbrev FS : Type := List (String × String)

/-- Contents of a path on disk, if the file exists. -/
def fsRead (fs : FS) (p : String) : Option String :=
  List.lookup p fs

/-- Modelled from the spec: the content fingerprint of a path, namely
`sha256:` plus the lowercase hex SHA-256 of the bytes, or `ABSENT` when the
file does not exist. -/
def fingerprint (fs : FS) (p : String) : String :=
  match fsRead fs p with
  | none => "ABSENT"
  | some content => "sha256:" ++ sha256hex (strBytes content)

/-- Result of a freshness check. -/
inductive FreshStatus where
  | fresh
  | stale
  | unknown
deriving DecidableEq, Repr

/-- The per-session freshness cache: last observed fingerprint per path. -/
abbrev FreshnessCache : Type := List (String × String)

/-- Modelled from the spec: `FreshnessCache.check` is `UNKNOWN` without a prior
entry, `FRESH` when the current on-disk fingerprint equals the stored one, and
`STALE` otherwise. -/
def cacheCheck (cache : FreshnessCache) (fs : FS) (p : String) : FreshStatus :=
  match List.lookup p cache with
  | none => FreshStatus.unknown
  | some fp => if fingerprint fs p = fp then FreshStatus.fresh else FreshStatus.stale

/-- Modelled from the spec: `FreshnessCache.observe` stores the current
fingerprint for the path. -/
def cacheObserve (cache : FreshnessCache) (fs : FS) (p : String) : FreshnessCache :=
  (p, fingerprint fs p) :: cache

/-! ## IntentStore persistence

Modelled from the spec (section 4.1): constructing the store ensures that
`active_intents.yaml` exists, creating it with an empty `active_intents: []`
document when absent; an empty document yields an empty registry. -/

/-- Registry file name inside the store directory. -/
def registryFileName : String := "active_intents.yaml"

/-- The empty registry document written on first use. -/
def emptyRegistryDoc : String := "active_intents: []"

/-- Modelled from the spec: `IntentStore.ensure` creates the registry file with
an empty document when it is absent; idempotent otherwise. -/
def ensureRegistry (fs : FS) : FS :=
  match fsRead fs registryFileName with
  | some _ => fs
  | none => (registryFileName, emptyRegistryDoc) :: fs

/-- Modelled from the spec: constructing an `IntentStore` runs `ensure`, so the
registry file exists right after construction. -/
def intentStoreInit (fs : FS) : FS := ensureRegistry fs

/-- Modelled from the spec: the registry parsed from the empty document
`active_intents: []` contains no intents. -/
def freshRegistry : List Intent := []

/-! ## Tool classification -/

/-- Modelled from the spec (section 4.5.2): read-only discovery tools, always
allowed without an intent. -/
def safeTools : List String :=
  ["read_file", "list_files", "list_code_definition_names", "search_files",
   "browser_action", "ask_followup_question", "attempt_completion"]

/-- Modelled from the spec (section 4.5.2): the gated mutating tools. -/
def mutatingTools : List String :=
  ["write_to_file", "apply_diff", "insert_content", "search_and_replace", "execute_command"]

/-- The mutating tools that carry a target path in `params.path`
(every mutating tool except `execute_command`). -/
def pathBearingTools : List String :=
  ["write_to_file", "apply_diff", "insert_content", "search_and_replace"]

/-- The write-family tools: one path is touched and recorded per call. -/
def writeFamilyTools : List String :=
  ["write_to_file", "apply_diff", "insert_content", "search_and_replace"]

/-- Modelled from the spec (section 4.5.2 step 4): a path is valid when it is
non-empty, relative (no leading slash) and free of parent components. -/
def validRelPath (p : String) : Bool :=
  !p.data.isEmpty && !strStarts p "/" && !(splitSeg p.data).contains ['.', '.']

/-! ## HookEngine -/

/-- The per-session engine state: the parsed registry, the currently bound
intent id, and the freshness cache. -/
structure HookEngine where
  registry : List Intent
  activeIntentId : Option String
  cache : FreshnessCache

/-- A fresh engine for a workspace registry: no intent bound, empty cache. -/
def mkEngine (registry : List Intent) : HookEngine :=
  { registry := registry, activeIntentId := none, cache := [] }

/-- The currently bound intent id. -/
def getActiveIntentId (e : HookEngine) : Option String :=
  e.activeIntentId

/-- One XML element. -/
def xmlTag (tag content : String) : String :=
  "<" ++ tag ++ ">" ++ content ++ "</" ++ tag ++ ">"

/-- A run of XML elements with the same tag, one per item. -/
def xmlList (tag : String) (items : List String) : String :=
  joinStrings "" (items.map fun s => xmlTag tag s)

/-- Modelled from the spec (section 4.5.1): the `<intent_context>` block
returned by a successful handshake. -/
def intentContextXml (intent : Intent) : String :=
  "<intent_context>" ++ xmlTag "id" intent.id ++ xmlTag "name" intent.name ++
    xmlTag "status" intent.status ++
    xmlTag "owned_scope" (xmlList "pattern" intent.owned_scope) ++
    xmlTag "constraints" (xmlList "item" intent.constraints) ++
    xmlTag "acceptance_criteria" (xmlList "item" intent.acceptance_criteria) ++
    "</intent_context>"

/-- Modelled from the spec (section 4.5.1): the error string returned when the
offered id is not in the registry; it begins with `ERROR`, echoes the id and
enumerates the available ids. -/
def intentNotFoundMsg (id : String) (availableIds : List String) : String :=
  "ERROR: No intent with id " ++ id ++ " was found in the registry. Available intent ids: " ++
    joinStrings ", " availableIds

/-- Modelled from the spec: `HookEngine.selectIntent`.  On hit it binds the
intent and returns the context XML; on miss it leaves the bound intent
unchanged and returns the error string. -/
def selectIntent (e : HookEngine) (id : String) : HookEngine × String :=
  match getIntent e.registry id with
  | some intent => ({ e with activeIntentId := some id }, intentContextXml intent)
  | none => (e, intentNotFoundMsg id (listIntentIds e.registry))

/-- The result of a pre-hook gate: allowed, or blocked with a reason. -/
structure HookResult where
  allowed : Bool
  reason : String
deriving DecidableEq, Repr

/-- Reason text for a mutating call without a bound intent. -/
def intentRequiredMsg : String :=
  "INTENT_REQUIRED: No active intent is bound to this session. " ++
    "Call select_active_intent with a valid intent id before using mutating tools."

/-- Reason text for a bound intent id that no longer resolves. -/
def intentMissingMsg (id : String) : String :=
  "INTENT_NOT_FOUND: No intent with id " ++ id ++ " exists in the registry."

/-- Reason text for a missing or malformed target path. -/
def pathInvalidMsg (p : String) : String :=
  "PATH_INVALID: The target path " ++ p ++ " is missing, absolute, or contains parent segments."

/-- Reason text for a target path outside the owned scope. -/
def scopeViolationMsg (id p : String) (globs : List String) : String :=
  "SCOPE_VIOLATION: Intent " ++ id ++ " does not own path " ++ p ++
    ". Owned scope: " ++ joinStrings ", " globs

/-- Reason text for an on-disk fingerprint that diverged from the cache. -/
def staleFileMsg (p : String) : String :=
  "STALE_FILE: The file " ++ p ++
    " changed on disk since it was last observed. Re-read the file before retrying."

/-- Modelled from the spec: `HookEngine.preHook` (section 4.5.2).  Decision
order: safe tools pass; a mutating tool needs a bound intent that resolves;
`execute_command` is then admitted without path checks; path-bearing tools need
a valid, in-scope, non-stale target path; an authorized call observes the
current (pre-write) fingerprint as a side effect. -/
def preHook (e : HookEngine) (fs : FS) (tool : String) (pathParam : Option String)
    (aid : Option String) : HookEngine × HookResult :=
  if tool ∈ safeTools then (e, { allowed := true, reason := "" })
  else
    match aid with
    | none => (e, { allowed := false, reason := intentRequiredMsg })
    | some iid =>
      match getIntent e.registry iid with
      | none => (e, { allowed := false, reason := intentMissingMsg iid })
      | some intent =>
        if tool = "execute_command" then (e, { allowed := true, reason := "" })
        else
          match pathParam with
          | none => (e, { allowed := false, reason := pathInvalidMsg "(missing)" })
          | some p =>
            if validRelPath p = false then
              (e, { allowed := false, reason := pathInvalidMsg p })
            else if inScope p intent.owned_scope = false then
              (e, { allowed := false, reason := scopeViolationMsg iid p intent.owned_scope })
            else if cacheCheck e.cache fs p = FreshStatus.stale then
              (e, { allowed := false, reason := staleFileMsg p })
            else
              ({ e with cache := cacheObserve e.cache fs p }, { allowed := true, reason := "" })

/-! ## Trace records and mutation classification

Modelled from the spec (sections 3 and 4.5.3). -/

/-- Modelled from the spec: the contributor of a recorded mutation. -/
structure Contributor where
  entity_type : String
  model_identifier : String
deriving DecidableEq, Repr

/-- Modelled from the spec: one touched file inside a trace record. -/
structure FileEntry where
  relative_path : String
  content_hash : String
  contributor : Contributor
deriving DecidableEq, Repr

/-- Modelled from the spec: one trace record of the audit ledger. -/
structure TraceRecord where
  id : String
  timestamp : String
  intent_id : String
  tool : String
  mutation_class : String
  files : List FileEntry
  elapsed_ms : Option Nat
deriving DecidableEq, Repr

/-- Modelled from the spec (section 8): the minimum marker set whose presence
classifies written content as `INTENT_EVOLUTION` (exported top-level symbol,
class or type declaration, route registration, database migration keyword). -/
def evolutionMarkers : List String :=
  ["export ", "class ", "interface ", "type ", "enum ",
   "router.", "app.get(", "app.post(", "app.put(", "app.delete(",
   "CREATE TABLE", "ALTER TABLE", "ADD COLUMN"]

/-- Written content carries at least one evolution marker. -/
def hasMarker (content : String) : Bool :=
  evolutionMarkers.any fun m => hasSub content m

/-- Modelled from the spec: `INTENT_EVOLUTION` when a marker is present,
`AST_REFACTOR` otherwise. -/
def classifyMutation (content : String) : String :=
  if hasMarker content then "INTENT_EVOLUTION" else "AST_REFACTOR"

/-- The file entry recorded for a write: post-write content hash and an AI
contributor. -/
def mkFileEntry (p content model : String) : FileEntry :=
  { relative_path := p,
    content_hash := "sha256:" ++ sha256hex (strBytes content),
    contributor := { entity_type := "AI", model_identifier := model } }

/-- Modelled from the spec (section 4.5.3): the trace record built by the
post-hook; write-family tools record exactly one file, commands record none. -/
def mkTraceRecord (recId ts aid tool p content model : String) (elapsed : Nat) : TraceRecord :=
  { id := recId, timestamp := ts, intent_id := aid, tool := tool,
    mutation_class := classifyMutation content,
    files := if tool ∈ writeFamilyTools then [mkFileEntry p content model] else [],
    elapsed_ms := some elapsed }

/-! ## Canonical JSONL serialization of trace records

Modelled from the spec (section 4.2): `append` serializes the record to a
single line of canonical JSON and performs one whole-line append; `readAll`
parses every non-blank line and fails on corrupt lines.  The ledger file is
modelled as its list of lines, which is exactly the granularity the spec's
line-atomic append invariant guarantees. -/

/-- Opening brace character (written by code point). -/
def lbChar : Char := Char.ofNat 123

/-- Closing brace character (written by code point). -/
def rbChar : Char := Char.ofNat 125

/-- JSON escape of one character. -/
def escChar (c : Char) : List Char :=
  if c = '"' then ['\\', '"']
  else if c = '\\' then ['\\', '\\']
  else if c = '\n' then ['\\', 'n']
  else if c = '\t' then ['\\', 't']
  else if c = '\r' then ['\\', 'r']
  else [c]

/-- JSON escape of a character list. -/
def escList : List Char → List Char
  | [] => []
  | c :: t => escChar c ++ escList t

/-- JSON escape of a string body. -/
def escStr (s : String) : List Char := escList s.data

/-- Decode one escaped character. -/
def unescChar (c : Char) : Option Char :=
  if c = '"' then some '"'
  else if c = '\\' then some '\\'
  else if c = 'n' then some '\n'
  else if c = 't' then some '\t'
  else if c = 'r' then some '\r'
  else none

/-- Parse a JSON string body up to and past its closing quote. -/
def parseStr : List Char → Option (List Char × List Char)
  | [] => none
  | c :: rest =>
    if c = '"' then some ([], rest)
    else if c = '\\' then
      match rest with
      | [] => none
      | e :: rest2 =>
        match unescChar e, parseStr rest2 with
        | some u, some (s, r) => some (u :: s, r)
        | _, _ => none
    else
      match parseStr rest with
      | some (s, r) => some (c :: s, r)
      | none => none

/-- Consume an expected literal character sequence. -/
def expectL : List Char → List Char → Option (List Char)
  | [], rest => some rest
  | _ :: _, [] => none
  | l :: lt, c :: ct => if c = l then expectL lt ct else none

/-- Decimal digit character of a value below ten. -/
def digitChar : Nat → Char
  | 0 => '0' | 1 => '1' | 2 => '2' | 3 => '3' | 4 => '4'
  | 5 => '5' | 6 => '6' | 7 => '7' | 8 => '8' | _ => '9'

/-- Value of a decimal digit character. -/
def digitVal (c : Char) : Option Nat :=
  if c = '0' then some 0 else if c = '1' then some 1 else if c = '2' then some 2
  else if c = '3' then some 3 else if c = '4' then some 4 else if c = '5' then some 5
  else if c = '6' then some 6 else if c = '7' then some 7 else if c = '8' then some 8
  else if c = '9' then some 9 else none

/-- Decimal digits of a natural number, most significant first. -/
def natToChars (n : Nat) : List Char :=
  if n < 10 then [digitChar n]
  else natToChars (n / 10) ++ [digitChar (n % 10)]
termination_by n
decreasing_by exact Nat.div_lt_self (by omega) (by omega)

/-- Consume a maximal run of decimal digits into an accumulator. -/
def parseDigits (acc : Nat) : List Char → Nat × List Char
  | [] => (acc, [])
  | c :: t =>
    match digitVal c with
    | some d => parseDigits (acc * 10 + d) t
    | none => (acc, c :: t)

/-- Key characters of the JSON key `"id":"`. -/
def kId : List Char := ['"', 'i', 'd', '"', ':', '"']

/-- Key characters of the JSON key `,"timestamp":"`. -/
def kTimestamp : List Char := [',', '"', 't', 'i', 'm', 'e', 's', 't', 'a', 'm', 'p', '"', ':', '"']

/-- Key characters of the JSON key `,"intent_id":"`. -/
def kIntentId : List Char := [',', '"', 'i', 'n', 't', 'e', 'n', 't', '_', 'i', 'd', '"', ':', '"']

/-- Key characters of the JSON key `,"tool":"`. -/
def kTool : List Char := [',', '"', 't', 'o', 'o', 'l', '"', ':', '"']

/-- Key characters of the JSON key `,"mutation_class":"`. -/
def kMutationClass : List Char :=
  [',', '"', 'm', 'u', 't', 'a', 't', 'i', 'o', 'n', '_', 'c', 'l', 'a', 's', 's', '"', ':', '"']

/-- Key characters of the JSON key `,"files":[`. -/
def kFiles : List Char := [',', '"', 'f', 'i', 'l', 'e', 's', '"', ':', '[']

/-- Key characters of the JSON key `,"elapsed_ms":`. -/
def kElapsed : List Char := [',', '"', 'e', 'l', 'a', 'p', 's', 'e', 'd', '_', 'm', 's', '"', ':']

/-- Key characters of the JSON key `"relative_path":"`. -/
def kRelPath : List Char :=
  ['"', 'r', 'e', 'l', 'a', 't', 'i', 'v', 'e', '_', 'p', 'a', 't', 'h', '"', ':', '"']

/-- Key characters of the JSON key `,"content_hash":"`. -/
def kContentHash : List Char :=
  [',', '"', 'c', 'o', 'n', 't', 'e', 'n', 't', '_', 'h', 'a', 's', 'h', '"', ':', '"']

/-- Key characters of the JSON key `,"model_identifier":"`. -/
def kModelId : List Char :=
  [',', '"', 'm', 'o', 'd', 'e', 'l', '_', 'i', 'd', 'e', 'n', 't', 'i', 'f', 'i', 'e', 'r', '"', ':', '"']

/-- Key characters of `,"contributor":` followed by the opening brace and the
key `"entity_type":"`. -/
def kContrib : List Char :=
  [',', '"', 'c', 'o', 'n', 't', 'r', 'i', 'b', 'u', 't', 'o', 'r', '"', ':', Char.ofNat 123,
   '"', 'e', 'n', 't', 'i', 't', 'y', '_', 't', 'y', 'p', 'e', '"', ':', '"']

/-- Serialize one file entry as a canonical JSON object. -/
def serFileEntry (e : FileEntry) : List Char :=
  lbChar :: (kRelPath ++ (escStr e.relative_path ++ ('"' :: (kContentHash ++
    (escStr e.content_hash ++ ('"' :: (kContrib ++ (escStr e.contributor.entity_type ++
    ('"' :: (kModelId ++ (escStr e.contributor.model_identifier ++
    ['"', rbChar, rbChar])))))))))))

/-- Serialize a file list, comma separated. -/
def serFiles : List FileEntry → List Char
  | [] => []
  | [e] => serFileEntry e
  | e :: f :: t => serFileEntry e ++ ',' :: serFiles (f :: t)

/-- Serialize the optional elapsed time. -/
def serElapsed : Option Nat → List Char
  | none => []
  | some n => kElapsed ++ natToChars n

/-- Serialize one trace record as a single line of canonical JSON. -/
def serRecord (r : TraceRecord) : List Char :=
  lbChar :: (kId ++ (escStr r.id ++ ('"' :: (kTimestamp ++ (escStr r.timestamp ++
    ('"' :: (kIntentId ++ (escStr r.intent_id ++ ('"' :: (kTool ++ (escStr r.tool ++
    ('"' :: (kMutationClass ++ (escStr r.mutation_class ++ ('"' :: (kFiles ++
    (serFiles r.files ++ (']' :: (serElapsed r.elapsed_ms ++ [rbChar])))))))))))))))))))

/-- Parse one file entry object. -/
def parseFileEntry (l : List Char) : Option (FileEntry × List Char) :=
  (expectL (lbChar :: kRelPath) l).bind fun l1 =>
  (parseStr l1).bind fun (rp, l2) =>
  (expectL kContentHash l2).bind fun l3 =>
  (parseStr l3).bind fun (chv, l4) =>
  (expectL kContrib l4).bind fun l5 =>
  (parseStr l5).bind fun (et, l6) =>
  (expectL kModelId l6).bind fun l7 =>
  (parseStr l7).bind fun (mi, l8) =>
  (expectL [rbChar, rbChar] l8).map fun l9 =>
    ({ relative_path := String.mk rp, content_hash := String.mk chv,
       contributor := { entity_type := String.mk et, model_identifier := String.mk mi } }, l9)

/-- Parse a bracketed file list; the fuel bounds the number of entries. -/
def parseFilesAux : Nat → List Char → Option (List FileEntry × List Char)
  | 0, _ => none
  | _ + 1, [] => none
  | f + 1, c :: rest =>
    if c = ']' then some ([], rest)
    else
      (parseFileEntry (c :: rest)).bind fun er =>
      match er.2 with
      | [] => none
      | c2 :: r2 =>
        if c2 = ',' then (parseFilesAux f r2).map fun esr => (er.1 :: esr.1, esr.2)
        else if c2 = ']' then some ([er.1], r2)
        else none

/-- Parse the optional elapsed field followed by the closing brace. -/
def parseElapsed (l : List Char) : Option (Option Nat × List Char) :=
  match l with
  | [] => none
  | c :: rest =>
    if c = rbChar then some (none, rest)
    else
      (expectL kElapsed (c :: rest)).bind fun l1 =>
      match l1 with
      | [] => none
      | d :: _ =>
        if (digitVal d).isSome then
          match parseDigits 0 l1 with
          | (n, l2) =>
            match l2 with
            | c2 :: l3 => if c2 = rbChar then some (some n, l3) else none
            | [] => none
        else none

/-- Parse one trace record object. -/
def parseRecord (l : List Char) : Option (TraceRecord × List Char) :=
  (expectL (lbChar :: kId) l).bind fun l1 =>
  (parseStr l1).bind fun (idv, l2) =>
  (expectL kTimestamp l2).bind fun l3 =>
  (parseStr l3).bind fun (tsv, l4) =>
  (expectL kIntentId l4).bind fun l5 =>
  (parseStr l5).bind fun (iid, l6) =>
  (expectL kTool l6).bind fun l7 =>
  (parseStr l7).bind fun (tl, l8) =>
  (expectL kMutationClass l8).bind fun l9 =>
  (parseStr l9).bind fun (mc, l10) =>
  (expectL kFiles l10).bind fun l11 =>
  (parseFilesAux (l11.length + 1) l11).bind fun (fls, l12) =>
  (parseElapsed l12).map fun (el, l13) =>
    ({ id := String.mk idv, timestamp := String.mk tsv, intent_id := String.mk iid,
       tool := String.mk tl, mutation_class := String.mk mc, files := fls,
       elapsed_ms := el }, l13)

/-! ## TraceLogger

Modelled from the spec (section 4.2); the ledger file is its list of lines. -/

/-- The ledger file, as the list of its lines. -/
abbrev LedgerFile : Type := List String

/-- The serialized line of one record. -/
def traceLine (r : TraceRecord) : String := String.mk (serRecord r)

/-- Modelled from the spec: `TraceLogger.appendTrace` performs one whole-line
append of the serialized record. -/
def appendTrace (f : LedgerFile) (r : TraceRecord) : LedgerFile :=
  f ++ [traceLine r]

/-- Parse one ledger line into a record; the whole line must be consumed. -/
def parseLine (s : String) : Option TraceRecord :=
  match parseRecord s.data with
  | some (r, []) => some r
  | _ => none

/-- Parse every line, failing when any line is corrupt. -/
def parseAllLines : List String → Option (List TraceRecord)
  | [] => some []
  | l :: t =>
    match parseLine l, parseAllLines t with
    | some r, some rs => some (r :: rs)
    | _, _ => none

/-- Modelled from the spec: `TraceLogger.readAll` skips blank lines, parses the
rest and propagates corruption as a failure (`LEDGER_CORRUPT`). -/
def readAll (f : LedgerFile) : Option (List TraceRecord) :=
  parseAllLines (f.filter fun l => !(l = ""))

/-- Modelled from the spec: `TraceLogger.getEntriesForIntent` is the filter of
`readAll` on the intent id. -/
def getEntriesForIntent (f : LedgerFile) (iid : String) : Option (List TraceRecord) :=
  (readAll f).map fun rs => rs.filter fun r => r.intent_id = iid

/-- Modelled from the spec: `HookEngine.postHook` builds the trace record,
appends it to the ledger and, for write-family tools, refreshes the cache with
the post-write fingerprint. -/
def postHook (e : HookEngine) (ledger : LedgerFile) (fsAfter : FS)
    (aid tool p content recId ts model : String) (elapsed : Nat) :
    HookEngine × LedgerFile :=
  let r := mkTraceRecord recId ts aid tool p content model elapsed
  let e2 :=
    if tool ∈ writeFamilyTools then { e with cache := cacheObserve e.cache fsAfter p } else e
  (e2, appendTrace ledger r)

/-! ## Intent enforcement prompt

Translated from `src/hooks/IntentSystemPrompt.ts`, which is present in the
source tree. -/

/-- The prompt text before the id list. -/
def promptHead : String :=
  "## MANDATORY PROTOCOL - READ THIS FIRST\n\nRULE: Your first tool call MUST be " ++
  "select_active_intent. Not read_file. Not list_files. SELECT_ACTIVE_INTENT FIRST.\n\n" ++
  "Available intent IDs: "

/-- The prompt text after the id list. -/
def promptTail : String :=
  "\n\nStep 1: Call select_active_intent(intent_id) immediately\n" ++
  "Step 2: Only after that, read files and write code\n\n" ++
  "If you call anything else first, you will be blocked."

/-- `getIntentEnforcementPrompt` from `IntentSystemPrompt.ts`: the trimmed
template with the id list interpolated, and the literal fallback
`INT-001, INT-002` when the list is empty. -/
def getIntentEnforcementPrompt (activeIntentIds : List String) : String :=
  promptHead ++
    (if activeIntentIds.length > 0 then joinStrings ", " activeIntentIds
     else "INT-001, INT-002") ++
    promptTail

/-! ## Test fixtures

The registry scaffolded by the test suite (`createTestWorkspace` in
`HookEngine.test.ts`). -/

/-- The intent `INT-001` of the test workspace. -/
def testIntent1 : Intent :=
  { id := "INT-001", name := "Weather API Implementation", status := "IN_PROGRESS",
    owned_scope := ["src/api/**", "src/services/weather/**"],
    constraints := ["Must not introduce external API dependencies without approval"],
    acceptance_criteria := ["All tests in tests/api/ pass"] }

/-- The intent `INT-002` of the test workspace. -/
def testIntent2 : Intent :=
  { id := "INT-002", name := "Auth Middleware Refactor", status := "PENDING",
    owned_scope := ["src/auth/**", "src/middleware/jwt.ts"],
    constraints := ["Must maintain backward compatibility with Basic Auth"],
    acceptance_criteria := ["Unit tests in tests/auth/ pass"] }

/-- The registry of the test workspace. -/
def testRegistry : List Intent := [testIntent1, testIntent2]

/-! ## Supporting lemmas: substring reasoning -/

/-- A list starts with itself followed by anything. -/
theorem leadsWith_append (n r : List Char) : leadsWith n (n ++ r) = true := by
  induction n with
  | nil => rfl
  | cons a as ih => simp [leadsWith, ih]

/-- A successful head match decomposes the haystack. -/
theorem leadsWith_ex {n h : List Char} (hl : leadsWith n h = true) : ∃ r, h = n ++ r := by
  induction n generalizing h with
  | nil => exact ⟨h, rfl⟩
  | cons a as ih =>
    cases h with
    | nil => simp [leadsWith] at hl
    | cons b bs =>
      simp [leadsWith] at hl
      obtain ⟨r, hr⟩ := ih hl.2
      exact ⟨r, by simp [hl.1, hr]⟩

/-- A head match is an occurrence. -/
theorem occursInL_of_leadsWith {n h : List Char} (hl : leadsWith n h = true) :
    occursInL n h = true := by
  cases h with
  | nil =>
    cases n with
    | nil => rfl
    | cons a as => simp [leadsWith] at hl
  | cons c t => simp [occursInL, hl]

/-- A needle occurs in any haystack that contains it between two parts. -/
theorem occursInL_parts (x n y : List Char) : occursInL n (x ++ n ++ y) = true := by
  induction x with
  | nil => exact occursInL_of_leadsWith (by simpa using leadsWith_append n y)
  | cons c t ih => simp [occursInL]; right; simpa using ih

/-- An occurrence decomposes the haystack into two parts around the needle. -/
theorem occursInL_ex {n h : List Char} (ho : occursInL n h = true) :
    ∃ x y, h = x ++ n ++ y := by
  induction h with
  | nil =>
    cases n with
    | nil => exact ⟨[], [], rfl⟩
    | cons a as => simp [occursInL, List.isEmpty] at ho
  | cons c t ih =>
    simp [occursInL] at ho
    rcases ho with hl | ho
    · obtain ⟨r, hr⟩ := leadsWith_ex hl
      exact ⟨[], r, by simp [hr]⟩
    · obtain ⟨x, y, he⟩ := ih ho
      exact ⟨c :: x, y, by simp [he]⟩

/-- Substring witness by explicit decomposition of the character data. -/
theorem hasSub_parts {hay n : String} (x y : List Char) (h : hay.data = x ++ n.data ++ y) :
    hasSub hay n = true := by
  unfold hasSub
  rw [h]
  exact occursInL_parts x n.data y

/-- A substring occurrence decomposes the character data. -/
theorem hasSub_ex {hay n : String} (h : hasSub hay n = true) :
    ∃ x y, hay.data = x ++ n.data ++ y :=
  occursInL_ex h

/-- Substring containment is preserved by appending on the right. -/
theorem hasSub_appendL {a n : String} (b : String) (h : hasSub a n = true) :
    hasSub (a ++ b) n = true := by
  obtain ⟨x, y, hx⟩ := hasSub_ex h
  exact hasSub_parts x (y ++ b.data) (by simp [String.data_append, hx])

/-- Substring containment is preserved by appending on the left. -/
theorem hasSub_appendR {b n : String} (a : String) (h : hasSub b n = true) :
    hasSub (a ++ b) n = true := by
  obtain ⟨x, y, hx⟩ := hasSub_ex h
  exact hasSub_parts (a.data ++ x) y (by simp [String.data_append, hx])

/-- Every string contains itself. -/
theorem hasSub_self (s : String) : hasSub s s = true :=
  hasSub_parts [] [] (by simp)

/-- Substring containment is transitive. -/
theorem hasSub_trans {a s n : String} (h1 : hasSub a s = true) (h2 : hasSub s n = true) :
    hasSub a n = true := by
  obtain ⟨x, y, hx⟩ := hasSub_ex h1
  obtain ⟨u, v, hu⟩ := hasSub_ex h2
  exact hasSub_parts (x ++ u) (v ++ y) (by simp [hx, hu])

/-- A string starts with any string it extends. -/
theorem strStarts_append (p r : String) : strStarts (p ++ r) p = true := by
  unfold strStarts
  rw [String.data_append]
  exact leadsWith_append _ _

/-- Starting is preserved by appending on the right. -/
theorem strStarts_appendL {a pfx : String} (b : String) (h : strStarts a pfx = true) :
    strStarts (a ++ b) pfx = true := by
  obtain ⟨r, hr⟩ := leadsWith_ex h
  unfold strStarts
  rw [String.data_append, hr]
  simpa using leadsWith_append pfx.data (r ++ b.data)

/-- A join contains each of its member strings. -/
theorem hasSub_join {g : String} {l : List String} (sep : String) (hg : g ∈ l) :
    hasSub (joinStrings sep l) g = true := by
  induction l with
  | nil => cases hg
  | cons x xs ih =>
    cases xs with
    | nil =>
      rcases List.mem_singleton.mp hg with rfl
      exact hasSub_self g
    | cons y ys =>
      rcases List.mem_cons.mp hg with rfl | h2
      · exact hasSub_appendL _ (hasSub_appendL _ (hasSub_self g))
      · exact hasSub_appendR _ (ih h2)

/-! ## Sanity anchors -/

/-- The SHA-256 of the empty message matches the published FIPS 180-4 vector. -/
theorem sha256hex_empty_vector :
    sha256hex [] = "e3b0c44298fc1c149afbf4c8996fb92427ae41e4649b934ca495991b7852b855" := by
  decide

/-- The SHA-256 of the bytes of `abc` matches the published FIPS 180-4 vector. -/
theorem sha256hex_abc_vector :
    sha256hex (strBytes "abc") =
      "ba7816bf8f01cfea414140de5dae2223b00361a396177a9cb410ff61f20015ad" := by
  decide

/-- Glob sanity: the test scope admits the in-scope path and rejects the
out-of-scope path of the test suite. -/
theorem inScope_test_paths :
    inScope "src/api/weather.ts" testIntent1.owned_scope = true ∧
    inScope "src/auth/middleware.ts" testIntent1.owned_scope = false ∧
    inScope "src/auth/middleware.ts" testIntent2.owned_scope = true ∧
    inScope "src/middleware/jwt.ts" testIntent2.owned_scope = true ∧
    inScope "anything" [] = false := by
  decide

/-! ## C1: INTENT_REQUIRED gate -/

/-- C1: for every mutating tool (`write_to_file`, `apply_diff`,
`insert_content`, `search_and_replace`, `execute_command`), a pre-hook call
with a null active intent id is blocked, and the reason carries the token
`INTENT_REQUIRED` together with the instruction to call
`select_active_intent`. -/
theorem preHook_intent_required (tool : String) (ht : tool ∈ mutatingTools)
    (e : HookEngine) (fs : FS) (pp : Option String) :
    (preHook e fs tool pp none).2.allowed = false ∧
    hasSub (preHook e fs tool pp none).2.reason "INTENT_REQUIRED" = true ∧
    hasSub (preHook e fs tool pp none).2.reason "select_active_intent" = true := by
  have hsafe : tool ∉ safeTools := by
    rcases (by simpa [mutatingTools] using ht) with h | h | h | h | h <;> subst h <;> decide
  have hred : preHook e fs tool pp none =
      (e, { allowed := false, reason := intentRequiredMsg }) := by
    simp [preHook, hsafe]
  rw [hred]
  refine ⟨rfl, ?_, ?_⟩
  · show hasSub intentRequiredMsg "INTENT_REQUIRED" = true
    decide
  · show hasSub intentRequiredMsg "select_active_intent" = true
    decide

/-- C1 witness: the scenario of the first test — a fresh engine blocks
`write_to_file` on `src/api/weather.ts` without an intent. -/
theorem preHook_intent_required_witness :
    ("write_to_file" ∈ mutatingTools) ∧
    ((preHook (mkEngine testRegistry) [] "write_to_file" (some "src/api/weather.ts")
        none).2.allowed = false ∧
     hasSub (preHook (mkEngine testRegistry) [] "write_to_file" (some "src/api/weather.ts")
        none).2.reason "INTENT_REQUIRED" = true ∧
     hasSub (preHook (mkEngine testRegistry) [] "write_to_file" (some "src/api/weather.ts")
        none).2.reason "select_active_intent" = true) :=
  ⟨by decide,
   preHook_intent_required "write_to_file" (by decide) (mkEngine testRegistry) []
     (some "src/api/weather.ts")⟩

/-! ## C6: safe tools always pass -/

/-- C6: for every safe tool (`read_file`, `list_files`,
`list_code_definition_names`, `search_files`, `browser_action`,
`ask_followup_question`, `attempt_completion`), the pre-hook allows the call
regardless of the active intent id, and the engine state is unchanged, so no
later check (intent, path, scope, freshness) is applied. -/
theorem preHook_safe_allowed (tool : String) (ht : tool ∈ safeTools)
    (e : HookEngine) (fs : FS) (pp : Option String) (aid : Option String) :
    preHook e fs tool pp aid = (e, { allowed := true, reason := "" }) := by
  simp [preHook, ht]

/-- C6 witness: `read_file` passes on a fresh engine with no intent ever
selected. -/
theorem preHook_safe_allowed_witness :
    ("read_file" ∈ safeTools) ∧
    preHook (mkEngine testRegistry) [] "read_file" (some "src/api/weather.ts") none =
      (mkEngine testRegistry, { allowed := true, reason := "" }) :=
  ⟨by decide,
   preHook_safe_allowed "read_file" (by decide) (mkEngine testRegistry) []
     (some "src/api/weather.ts") none⟩

/-! ## C4 and C5: the handshake -/

/-- An XML element contains its content. -/
theorem hasSub_xmlTag (t c : String) : hasSub (xmlTag t c) c = true := by
  unfold xmlTag
  exact hasSub_appendL _ (hasSub_appendL _ (hasSub_appendL _ (hasSub_appendR _ (hasSub_self c))))

/-- An XML element run contains each member item. -/
theorem hasSub_xmlList {g : String} {l : List String} (t : String) (hg : g ∈ l) :
    hasSub (xmlList t l) g = true := by
  have hmem : xmlTag t g ∈ l.map fun s => xmlTag t s := List.mem_map_of_mem _ hg
  exact hasSub_trans (hasSub_join "" hmem) (hasSub_xmlTag t g)

/-- C4: for every id present in the registry, `selectIntent` binds the id (a
subsequent `getActiveIntentId` returns it) and returns a string containing the
`<intent_context>` block with the intent id element, the name, the status,
every owned-scope pattern, every constraint and every acceptance criterion. -/
theorem selectIntent_hit (e : HookEngine) (id : String) (intent : Intent)
    (hi : getIntent e.registry id = some intent) :
    getActiveIntentId (selectIntent e id).1 = some id ∧
    hasSub (selectIntent e id).2 "<intent_context>" = true ∧
    hasSub (selectIntent e id).2 (xmlTag "id" id) = true ∧
    hasSub (selectIntent e id).2 intent.name = true ∧
    hasSub (selectIntent e id).2 intent.status = true ∧
    (∀ g ∈ intent.owned_scope, hasSub (selectIntent e id).2 g = true) ∧
    (∀ c ∈ intent.constraints, hasSub (selectIntent e id).2 c = true) ∧
    (∀ a ∈ intent.acceptance_criteria, hasSub (selectIntent e id).2 a = true) := by
  have hid : intent.id = id := by
    have hp := List.find?_some hi
    simpa using hp
  have hred : selectIntent e id =
      ({ e with activeIntentId := some id }, intentContextXml intent) := by
    simp [selectIntent, hi]
  rw [hred]
  have hx : intentContextXml intent =
      "<intent_context>" ++ xmlTag "id" id ++ xmlTag "name" intent.name ++
        xmlTag "status" intent.status ++
        xmlTag "owned_scope" (xmlList "pattern" intent.owned_scope) ++
        xmlTag "constraints" (xmlList "item" intent.constraints) ++
        xmlTag "acceptance_criteria" (xmlList "item" intent.acceptance_criteria) ++
        "</intent_context>" := by
    rw [intentContextXml, hid]
  refine ⟨rfl, ?_, ?_, ?_, ?_, ?_, ?_, ?_⟩
  · show hasSub (intentContextXml intent) "<intent_context>" = true
    rw [hx]
    exact hasSub_appendL _ (hasSub_appendL _ (hasSub_appendL _ (hasSub_appendL _
      (hasSub_appendL _ (hasSub_appendL _ (hasSub_appendL _
        (hasSub_self "<intent_context>")))))))
  · show hasSub (intentContextXml intent) (xmlTag "id" id) = true
    rw [hx]
    exact hasSub_appendL _ (hasSub_appendL _ (hasSub_appendL _ (hasSub_appendL _
      (hasSub_appendL _ (hasSub_appendL _ (hasSub_appendR _ (hasSub_self _)))))))
  · show hasSub (intentContextXml intent) intent.name = true
    rw [hx]
    exact hasSub_appendL _ (hasSub_appendL _ (hasSub_appendL _ (hasSub_appendL _
      (hasSub_appendL _ (hasSub_appendR _ (hasSub_xmlTag _ _))))))
  · show hasSub (intentContextXml intent) intent.status = true
    rw [hx]
    exact hasSub_appendL _ (hasSub_appendL _ (hasSub_appendL _ (hasSub_appendL _
      (hasSub_appendR _ (hasSub_xmlTag _ _)))))
  · intro g hg
    show hasSub (intentContextXml intent) g = true
    rw [hx]
    exact hasSub_appendL _ (hasSub_appendL _ (hasSub_appendL _ (hasSub_appendR _
      (hasSub_trans (hasSub_xmlTag _ _) (hasSub_xmlList _ hg)))))
  · intro c hc
    show hasSub (intentContextXml intent) c = true
    rw [hx]
    exact hasSub_appendL _ (hasSub_appendL _ (hasSub_appendR _
      (hasSub_trans (hasSub_xmlTag _ _) (hasSub_xmlList _ hc))))
  · intro a ha
    show hasSub (intentContextXml intent) a = true
    rw [hx]
    exact hasSub_appendL _ (hasSub_appendR _
      (hasSub_trans (hasSub_xmlTag _ _) (hasSub_xmlList _ ha)))

/-- C4 witness: the handshake scenario of the test suite — selecting `INT-001`
binds it and the returned context carries its id element, name and scope. -/
theorem selectIntent_hit_witness :
    (getIntent testRegistry "INT-001" = some testIntent1) ∧
    getActiveIntentId (selectIntent (mkEngine testRegistry) "INT-001").1 = some "INT-001" ∧
    hasSub (selectIntent (mkEngine testRegistry) "INT-001").2 "<intent_context>" = true ∧
    hasSub (selectIntent (mkEngine testRegistry) "INT-001").2 "<id>INT-001</id>" = true ∧
    hasSub (selectIntent (mkEngine testRegistry) "INT-001").2 "Weather API Implementation" = true ∧
    hasSub (selectIntent (mkEngine testRegistry) "INT-001").2 "src/api/**" = true := by
  have h := selectIntent_hit (mkEngine testRegistry) "INT-001" testIntent1 (by decide)
  exact ⟨by decide, h.1, h.2.1, h.2.2.1, h.2.2.2.1, h.2.2.2.2.2.1 "src/api/**" (by decide)⟩

/-- C5: for every id not present in the registry, `selectIntent` leaves the
engine (hence the bound intent id) unchanged and returns an error string that
begins with `ERROR`, echoes the offered id, and contains every available
intent id as a suggestion. -/
theorem selectIntent_miss (e : HookEngine) (id : String)
    (hi : getIntent e.registry id = none) :
    (selectIntent e id).1 = e ∧
    strStarts (selectIntent e id).2 "ERROR" = true ∧
    hasSub (selectIntent e id).2 id = true ∧
    ∀ i ∈ listIntentIds e.registry, hasSub (selectIntent e id).2 i = true := by
  have hred : selectIntent e id = (e, intentNotFoundMsg id (listIntentIds e.registry)) := by
    simp [selectIntent, hi]
  rw [hred]
  refine ⟨rfl, ?_, ?_, ?_⟩
  · show strStarts (intentNotFoundMsg id (listIntentIds e.registry)) "ERROR" = true
    unfold intentNotFoundMsg
    exact strStarts_appendL _ (strStarts_appendL _ (strStarts_appendL _ (by decide)))
  · show hasSub (intentNotFoundMsg id (listIntentIds e.registry)) id = true
    unfold intentNotFoundMsg
    exact hasSub_appendL _ (hasSub_appendL _ (hasSub_appendR _ (hasSub_self id)))
  · intro i hiMem
    show hasSub (intentNotFoundMsg id (listIntentIds e.registry)) i = true
    unfold intentNotFoundMsg
    exact hasSub_appendR _ (hasSub_join _ hiMem)

/-- C5 witness: the invalid-id scenario of the test suite — `INT-999` is
rejected, the engine stays unbound, and the message echoes `INT-999` and
suggests `INT-001`. -/
theorem selectIntent_miss_witness :
    (getIntent testRegistry "INT-999" = none) ∧
    ((selectIntent (mkEngine testRegistry) "INT-999").1 = mkEngine testRegistry ∧
     strStarts (selectIntent (mkEngine testRegistry) "INT-999").2 "ERROR" = true ∧
     hasSub (selectIntent (mkEngine testRegistry) "INT-999").2 "INT-999" = true ∧
     ∀ i ∈ listIntentIds testRegistry,
       hasSub (selectIntent (mkEngine testRegistry) "INT-999").2 i = true) :=
  ⟨by decide, selectIntent_miss (mkEngine testRegistry) "INT-999" (by decide)⟩

/-! ## C2: SCOPE_VIOLATION -/

/-- The scope-violation reason carries the token, the intent id, the offending
path, and every owned-scope glob verbatim. -/
theorem scopeViolationMsg_contains (iid p : String) (globs : List String) :
    hasSub (scopeViolationMsg iid p globs) "SCOPE_VIOLATION" = true ∧
    hasSub (scopeViolationMsg iid p globs) iid = true ∧
    hasSub (scopeViolationMsg iid p globs) p = true ∧
    ∀ g ∈ globs, hasSub (scopeViolationMsg iid p globs) g = true := by
  unfold scopeViolationMsg
  refine ⟨?_, ?_, ?_, ?_⟩
  · exact hasSub_appendL _ (hasSub_appendL _ (hasSub_appendL _ (hasSub_appendL _
      (hasSub_appendL _ (by decide)))))
  · exact hasSub_appendL _ (hasSub_appendL _ (hasSub_appendL _ (hasSub_appendL _
      (hasSub_appendR _ (hasSub_self iid)))))
  · exact hasSub_appendL _ (hasSub_appendL _ (hasSub_appendR _ (hasSub_self p)))
  · intro g hg
    exact hasSub_appendR _ (hasSub_join _ hg)

/-- C2: for every path-bearing mutating tool, when an intent is bound and
resolves but the valid target path matches no glob of its owned scope, the
pre-hook blocks with a reason containing `SCOPE_VIOLATION`, the intent id, the
offending path, and each owned-scope glob verbatim. -/
theorem preHook_scope_violation (tool : String) (ht : tool ∈ pathBearingTools)
    (e : HookEngine) (fs : FS) (iid p : String) (intent : Intent)
    (hi : getIntent e.registry iid = some intent)
    (hv : validRelPath p = true)
    (hs : inScope p intent.owned_scope = false) :
    (preHook e fs tool (some p) (some iid)).2.allowed = false ∧
    hasSub (preHook e fs tool (some p) (some iid)).2.reason "SCOPE_VIOLATION" = true ∧
    hasSub (preHook e fs tool (some p) (some iid)).2.reason iid = true ∧
    hasSub (preHook e fs tool (some p) (some iid)).2.reason p = true ∧
    ∀ g ∈ intent.owned_scope,
      hasSub (preHook e fs tool (some p) (some iid)).2.reason g = true := by
  have hsafe : tool ∉ safeTools := by
    rcases (by simpa [pathBearingTools] using ht) with h | h | h | h <;> subst h <;> decide
  have hexec : tool ≠ "execute_command" := by
    rcases (by simpa [pathBearingTools] using ht) with h | h | h | h <;> subst h <;> decide
  have hred : preHook e fs tool (some p) (some iid) =
      (e, { allowed := false, reason := scopeViolationMsg iid p intent.owned_scope }) := by
    simp [preHook, hsafe, hexec, hi, hv, hs]
  rw [hred]
  have hmsg := scopeViolationMsg_contains iid p intent.owned_scope
  exact ⟨rfl, hmsg.1, hmsg.2.1, hmsg.2.2.1, hmsg.2.2.2⟩

/-- C2 witness: the scope-violation scenario of the test suite — with
`INT-001` bound, writing `src/auth/middleware.ts` is blocked and the reason
carries the token, the id, the path and the glob `src/api/**`. -/
theorem preHook_scope_violation_witness :
    ("write_to_file" ∈ pathBearingTools) ∧
    (getIntent testRegistry "INT-001" = some testIntent1) ∧
    (validRelPath "src/auth/middleware.ts" = true) ∧
    (inScope "src/auth/middleware.ts" testIntent1.owned_scope = false) ∧
    ((preHook (mkEngine testRegistry) [] "write_to_file" (some "src/auth/middleware.ts")
        (some "INT-001")).2.allowed = false ∧
     hasSub (preHook (mkEngine testRegistry) [] "write_to_file" (some "src/auth/middleware.ts")
        (some "INT-001")).2.reason "SCOPE_VIOLATION" = true ∧
     hasSub (preHook (mkEngine testRegistry) [] "write_to_file" (some "src/auth/middleware.ts")
        (some "INT-001")).2.reason "INT-001" = true ∧
     hasSub (preHook (mkEngine testRegistry) [] "write_to_file" (some "src/auth/middleware.ts")
        (some "INT-001")).2.reason "src/auth/middleware.ts" = true ∧
     ∀ g ∈ testIntent1.owned_scope,
       hasSub (preHook (mkEngine testRegistry) [] "write_to_file"
          (some "src/auth/middleware.ts") (some "INT-001")).2.reason g = true) :=
  ⟨by decide, by decide, by decide, by decide,
   preHook_scope_violation "write_to_file" (by decide) (mkEngine testRegistry) []
     "INT-001" "src/auth/middleware.ts" testIntent1 (by decide) (by decide) (by decide)⟩

/-! ## C3: first touch and stale detection -/

/-- C3: for an in-scope, valid path under a bound and resolvable intent, a
pre-hook with no cache entry for the path (first touch this session) is always
permitted, even when the file does not exist on disk, and the authorized call
records the current on-disk fingerprint for the path; with a recorded entry,
the call is allowed exactly when the on-disk fingerprint equals the recorded
one (in particular when the bytes are unchanged), and otherwise it is blocked
with a `STALE_FILE` reason containing the path. -/
theorem preHook_freshness_gate (tool : String) (ht : tool ∈ pathBearingTools)
    (e : HookEngine) (fs : FS) (iid p : String) (intent : Intent)
    (hi : getIntent e.registry iid = some intent)
    (hv : validRelPath p = true)
    (hs : inScope p intent.owned_scope = true) :
    (List.lookup p e.cache = none →
       (preHook e fs tool (some p) (some iid)).2.allowed = true ∧
       List.lookup p (preHook e fs tool (some p) (some iid)).1.cache =
         some (fingerprint fs p)) ∧
    (∀ fp, List.lookup p e.cache = some fp →
       (fingerprint fs p = fp →
          (preHook e fs tool (some p) (some iid)).2.allowed = true ∧
          List.lookup p (preHook e fs tool (some p) (some iid)).1.cache =
            some (fingerprint fs p)) ∧
       (fingerprint fs p ≠ fp →
          (preHook e fs tool (some p) (some iid)).2.allowed = false ∧
          hasSub (preHook e fs tool (some p) (some iid)).2.reason "STALE_FILE" = true ∧
          hasSub (preHook e fs tool (some p) (some iid)).2.reason p = true)) := by
  have hsafe : tool ∉ safeTools := by
    rcases (by simpa [pathBearingTools] using ht) with h | h | h | h <;> subst h <;> decide
  have hexec : tool ≠ "execute_command" := by
    rcases (by simpa [pathBearingTools] using ht) with h | h | h | h <;> subst h <;> decide
  have hred : preHook e fs tool (some p) (some iid) =
      (if cacheCheck e.cache fs p = FreshStatus.stale
       then (e, { allowed := false, reason := staleFileMsg p })
       else ({ e with cache := cacheObserve e.cache fs p }, { allowed := true, reason := "" })) := by
    simp [preHook, hsafe, hexec, hi, hv, hs]
  constructor
  · intro hnone
    have hcc : cacheCheck e.cache fs p = FreshStatus.unknown := by
      simp [cacheCheck, hnone]
    rw [hred, if_neg (by simp [hcc])]
    exact ⟨rfl, by simp [cacheObserve, List.lookup]⟩
  · intro fp hsome
    constructor
    · intro heq
      have hcc : cacheCheck e.cache fs p = FreshStatus.fresh := by
        simp [cacheCheck, hsome, heq]
      rw [hred, if_neg (by simp [hcc])]
      exact ⟨rfl, by simp [cacheObserve, List.lookup]⟩
    · intro hne
      have hcc : cacheCheck e.cache fs p = FreshStatus.stale := by
        simp [cacheCheck, hsome, hne]
      rw [hred, if_pos hcc]
      refine ⟨rfl, ?_, ?_⟩
      · show hasSub (staleFileMsg p) "STALE_FILE" = true
        unfold staleFileMsg
        exact hasSub_appendL _ (hasSub_appendL _ (by decide))
      · show hasSub (staleFileMsg p) p = true
        unfold staleFileMsg
        exact hasSub_appendL _ (hasSub_appendR _ (hasSub_self p))

/-- C3 witness: the concurrency scenario of the test suite — the first touch
of `src/api/weather.ts` on a fresh engine (file absent on disk) is permitted,
and with a recorded fingerprint that no longer matches the bytes on disk the
same call is blocked. -/
theorem preHook_freshness_gate_witness :
    ((preHook (mkEngine testRegistry) [] "write_to_file" (some "src/api/weather.ts")
        (some "INT-001")).2.allowed = true) ∧
    ((preHook
        { registry := testRegistry, activeIntentId := some "INT-001",
          cache := [("src/api/weather.ts", "sha256:stale")] }
        [("src/api/weather.ts", "modified by another agent")]
        "write_to_file" (some "src/api/weather.ts") (some "INT-001")).2.allowed = false) := by
  constructor
  · exact ((preHook_freshness_gate "write_to_file" (by decide) (mkEngine testRegistry) []
      "INT-001" "src/api/weather.ts" testIntent1 (by decide) (by decide) (by decide)).1
      (by decide)).1
  · exact (((preHook_freshness_gate "write_to_file" (by decide)
      { registry := testRegistry, activeIntentId := some "INT-001",
        cache := [("src/api/weather.ts", "sha256:stale")] }
      [("src/api/weather.ts", "modified by another agent")]
      "INT-001" "src/api/weather.ts" testIntent1 (by decide) (by decide) (by decide)).2
      "sha256:stale" (by decide)).2 (by decide)).1

/-! ## C7: post-hook ledger record -/

/-- C7: every post-hook call for a write-family tool appends exactly one
record whose `intent_id` is the session's active intent id, whose single file
entry has a `content_hash` beginning with `sha256:` and an `AI` contributor,
and whose `mutation_class` is `INTENT_EVOLUTION` exactly when the written
content contains an evolution marker and `AST_REFACTOR` otherwise. -/
theorem postHook_ledger_record (e : HookEngine) (ledger : LedgerFile) (fsAfter : FS)
    (aid tool p content recId ts model : String) (elapsed : Nat)
    (ht : tool ∈ writeFamilyTools) :
    (postHook e ledger fsAfter aid tool p content recId ts model elapsed).2 =
      ledger ++ [traceLine (mkTraceRecord recId ts aid tool p content model elapsed)] ∧
    (mkTraceRecord recId ts aid tool p content model elapsed).intent_id = aid ∧
    (mkTraceRecord recId ts aid tool p content model elapsed).files =
      [mkFileEntry p content model] ∧
    strStarts (mkFileEntry p content model).content_hash "sha256:" = true ∧
    (mkFileEntry p content model).contributor.entity_type = "AI" ∧
    ((mkTraceRecord recId ts aid tool p content model elapsed).mutation_class =
        "INTENT_EVOLUTION" ↔ hasMarker content = true) ∧
    ((mkTraceRecord recId ts aid tool p content model elapsed).mutation_class =
        "AST_REFACTOR" ↔ hasMarker content = false) := by
  refine ⟨rfl, rfl, by simp [mkTraceRecord, ht], ?_, rfl, ?_, ?_⟩
  · show strStarts ("sha256:" ++ sha256hex (strBytes content)) "sha256:" = true
    exact strStarts_append _ _
  · by_cases h : hasMarker content <;> simp [mkTraceRecord, classifyMutation, h]
  · by_cases h : hasMarker content <;> simp [mkTraceRecord, classifyMutation, h]

/-- C7 witness: the classification scenario of the test suite — writing
`export class WeatherService` appends one record classified
`INTENT_EVOLUTION`. -/
theorem postHook_ledger_record_witness :
    ("write_to_file" ∈ writeFamilyTools) ∧
    (postHook (mkEngine testRegistry) [] [] "INT-001" "write_to_file" "src/api/weather.ts"
        "export class WeatherService" "test-uuid" "2026-02-20T00:00:00Z" "unknown" 120).2 =
      [traceLine (mkTraceRecord "test-uuid" "2026-02-20T00:00:00Z" "INT-001" "write_to_file"
        "src/api/weather.ts" "export class WeatherService" "unknown" 120)] ∧
    (mkTraceRecord "test-uuid" "2026-02-20T00:00:00Z" "INT-001" "write_to_file"
        "src/api/weather.ts" "export class WeatherService" "unknown" 120).mutation_class =
      "INTENT_EVOLUTION" := by
  have h := postHook_ledger_record (mkEngine testRegistry) [] [] "INT-001" "write_to_file"
    "src/api/weather.ts" "export class WeatherService" "test-uuid" "2026-02-20T00:00:00Z"
    "unknown" 120 (by decide)
  exact ⟨by decide, by simpa using h.1, (h.2.2.2.2.2.1).mpr (by decide)⟩

/-! ## C9: the enforcement prompt (corrected) -/

/-- C9 counterexample: for the empty list of available ids the prompt does not
list exactly those ids — it contains the hardcoded placeholder `INT-001`,
which is not among the (empty) currently-available ids. -/
theorem enforcementPrompt_empty_cex :
    hasSub (getIntentEnforcementPrompt []) "INT-001" = true ∧
    "INT-001" ∉ ([] : List String) :=
  ⟨by decide, by decide⟩

/-- C9 (amended): for every non-empty list of available ids the prompt is
exactly the fixed template around the comma-joined id list (so it lists
exactly those ids and states the rule that the first tool call must be
`select_active_intent`); for the empty list the source substitutes the
placeholder `INT-001, INT-002` instead of an empty enumeration. -/
theorem enforcementPrompt_lists_ids (ids : List String) (h : ids ≠ []) :
    getIntentEnforcementPrompt ids = promptHead ++ joinStrings ", " ids ++ promptTail ∧
    hasSub (getIntentEnforcementPrompt ids)
      "first tool call MUST be select_active_intent" = true ∧
    ∀ i ∈ ids, hasSub (getIntentEnforcementPrompt ids) i = true := by
  have hlen : ids.length > 0 := by
    cases ids with
    | nil => exact absurd rfl h
    | cons a t => simp
  have hred : getIntentEnforcementPrompt ids =
      promptHead ++ joinStrings ", " ids ++ promptTail := by
    simp [getIntentEnforcementPrompt, hlen]
  refine ⟨hred, ?_, ?_⟩
  · rw [hred]
    exact hasSub_appendL _ (hasSub_appendL _ (by decide))
  · intro i hi
    rw [hred]
    exact hasSub_appendL _ (hasSub_appendR _ (hasSub_join _ hi))

/-- C9 witness: with the two test ids available, the prompt is the template
around `INT-001, INT-002`, states the rule, and contains both ids. -/
theorem enforcementPrompt_lists_ids_witness :
    ((["INT-001", "INT-002"] : List String) ≠ []) ∧
    (getIntentEnforcementPrompt ["INT-001", "INT-002"] =
       promptHead ++ joinStrings ", " ["INT-001", "INT-002"] ++ promptTail ∧
     hasSub (getIntentEnforcementPrompt ["INT-001", "INT-002"])
       "first tool call MUST be select_active_intent" = true ∧
     ∀ i ∈ (["INT-001", "INT-002"] : List String),
       hasSub (getIntentEnforcementPrompt ["INT-001", "INT-002"]) i = true) :=
  ⟨by decide, enforcementPrompt_lists_ids ["INT-001", "INT-002"] (by decide)⟩

/-! ## C10: IntentStore construction -/

/-- C10: constructing an `IntentStore` immediately ensures that the
`active_intents.yaml` registry file exists (for any prior filesystem state),
and a fresh store resolves every unknown id to null and lists a (here empty)
id list. -/
theorem intentStore_init (fs : FS) :
    (fsRead (intentStoreInit fs) registryFileName).isSome = true ∧
    (∀ id, getIntent freshRegistry id = none) ∧
    listIntentIds freshRegistry = [] := by
  refine ⟨?_, fun id => rfl, rfl⟩
  unfold intentStoreInit ensureRegistry
  cases h : fsRead fs registryFileName with
  | some v => simp [h]
  | none => simp [fsRead, List.lookup]

/-! ## C8 machinery: serializer and parser roundtrip -/

/-- A string rebuilt from its character data is itself. -/
theorem mk_data (s : String) : String.mk s.data = s := by
  cases s
  rfl

/-- Consuming an expected literal from its own extension succeeds. -/
theorem expectL_append (lit rest : List Char) : expectL lit (lit ++ rest) = some rest := by
  induction lit with
  | nil => rfl
  | cons l lt ih => simp [expectL, ih]

/-- Parsing an escaped string body up to the closing quote recovers it. -/
theorem parseStr_escape (s rest : List Char) :
    parseStr (escList s ++ '"' :: rest) = some (s, rest) := by
  induction s with
  | nil =>
    rw [escList, List.nil_append, parseStr.eq_def]
    simp
  | cons c t ih =>
    by_cases h1 : c = '"'
    · subst h1
      rw [escList, escChar]
      simp only [if_pos rfl, List.cons_append, List.append_assoc]
      rw [parseStr.eq_def]
      simp [unescChar, ih]
    · by_cases h2 : c = '\\'
      · subst h2
        rw [escList, escChar]
        simp only [if_neg (by decide : ¬ ('\\' = '"')), if_pos rfl, List.cons_append,
          List.append_assoc]
        rw [parseStr.eq_def]
        simp [unescChar, ih]
      · by_cases h3 : c = '\n'
        · subst h3
          rw [escList, escChar]
          simp only [if_neg (by decide : ¬ ('\n' = '"')), if_neg (by decide : ¬ ('\n' = '\\')),
            if_pos rfl, List.cons_append, List.append_assoc]
          rw [parseStr.eq_def]
          simp [unescChar, ih]
        · by_cases h4 : c = '\t'
          · subst h4
            rw [escList, escChar]
            simp only [if_neg (by decide : ¬ ('\t' = '"')), if_neg (by decide : ¬ ('\t' = '\\')),
              if_neg (by decide : ¬ ('\t' = '\n')), if_pos rfl, List.cons_append,
              List.append_assoc]
            rw [parseStr.eq_def]
            simp [unescChar, ih]
          · by_cases h5 : c = '\r'
            · subst h5
              rw [escList, escChar]
              simp only [if_neg (by decide : ¬ ('\r' = '"')),
                if_neg (by decide : ¬ ('\r' = '\\')), if_neg (by decide : ¬ ('\r' = '\n')),
                if_neg (by decide : ¬ ('\r' = '\t')), if_pos rfl, List.cons_append,
                List.append_assoc]
              rw [parseStr.eq_def]
              simp [unescChar, ih]
            · rw [escList, escChar]
              simp only [if_neg h1, if_neg h2, if_neg h3, if_neg h4, if_neg h5,
                List.cons_append, List.nil_append]
              rw [parseStr.eq_def]
              simp [h1, h2, ih]

/-- The decimal rendering of a number starts with a digit. -/
theorem natToChars_head (n : Nat) :
    ∃ d ds, natToChars n = d :: ds ∧ (digitVal d).isSome = true := by
  induction n using Nat.strong_induction_on with
  | _ n ih =>
    by_cases h : n < 10
    · refine ⟨digitChar n, [], ?_, ?_⟩
      · rw [natToChars]
        simp [h]
      · interval_cases n <;> simp [digitChar, digitVal]
    · obtain ⟨d, ds, hd, hv⟩ := ih (n / 10) (Nat.div_lt_self (by omega) (by omega))
      refine ⟨d, ds ++ [digitChar (n % 10)], ?_, hv⟩
      rw [natToChars]
      simp [h, hd]

/-- Consuming the decimal rendering of `n` multiplies the accumulator by a
fixed power of ten and adds `n`. -/
theorem parseDigits_chars (n : Nat) :
    ∃ m, 0 < m ∧ ∀ acc rest,
      parseDigits acc (natToChars n ++ rest) = parseDigits (acc * m + n) rest := by
  induction n using Nat.strong_induction_on with
  | _ n ih =>
    by_cases h : n < 10
    · refine ⟨10, by omega, fun acc rest => ?_⟩
      rw [natToChars]
      simp only [h, if_pos, List.cons_append, List.nil_append]
      interval_cases n <;> simp [digitChar, digitVal, parseDigits]
    · obtain ⟨m, hm, hrec⟩ := ih (n / 10) (Nat.div_lt_self (by omega) (by omega))
      refine ⟨m * 10, by positivity, fun acc rest => ?_⟩
      have hn : natToChars n = natToChars (n / 10) ++ [digitChar (n % 10)] := by
        rw [natToChars]
        simp [h]
      rw [hn, List.append_assoc, hrec acc ([digitChar (n % 10)] ++ rest)]
      have h10 : n % 10 < 10 := Nat.mod_lt _ (by omega)
      have hd : digitVal (digitChar (n % 10)) = some (n % 10) := by
        interval_cases hmod : n % 10 <;> simp [digitChar, digitVal]
      simp only [List.cons_append, List.nil_append, parseDigits, hd]
      congr 1
      have hmul : acc * (m * 10) = acc * m * 10 := by ring
      rw [hmul]
      omega

/-- Consuming a literal exposed behind its head character. -/
theorem expectL_cons_append (a : Char) (lit rest : List Char) :
    expectL (a :: lit) (a :: (lit ++ rest)) = some rest := by
  simp [expectL, expectL_append]

/-- Consuming the two closing braces of a serialized file entry. -/
theorem expectL_rb2 (rest : List Char) :
    expectL [rbChar, rbChar] (rbChar :: rbChar :: rest) = some rest := by
  simp [expectL]

/-- Parsing a serialized file entry recovers it. -/
theorem parseFileEntry_ser (e : FileEntry) (rest : List Char) :
    parseFileEntry (serFileEntry e ++ rest) = some (e, rest) := by
  obtain ⟨rp, chv, ⟨et, mi⟩⟩ := e
  simp only [serFileEntry, escStr, List.cons_append, List.append_assoc, List.nil_append]
  simp [parseFileEntry, expectL_cons_append, expectL_append, expectL_rb2, parseStr_escape,
    mk_data, Option.bind]

/-- Parsing a serialized optional elapsed field up to the closing brace
recovers it. -/
theorem parseElapsed_ser (el : Option Nat) (rest : List Char) :
    parseElapsed (serElapsed el ++ rbChar :: rest) = some (el, rest) := by
  cases el with
  | none =>
    rw [serElapsed, List.nil_append]
    simp [parseElapsed]
  | some n =>
    obtain ⟨d, ds, hd, hv⟩ := natToChars_head n
    obtain ⟨m, hm, hrec⟩ := parseDigits_chars n
    rw [serElapsed, List.append_assoc]
    have hstream : kElapsed ++ (natToChars n ++ rbChar :: rest) =
        ',' :: (kElapsed.tail ++ (natToChars n ++ rbChar :: rest)) := by
      simp [kElapsed]
    rw [hstream, parseElapsed]
    rw [if_neg (by decide : ¬ ((',' : Char) = rbChar))]
    have hexp : expectL kElapsed (',' :: (kElapsed.tail ++ (natToChars n ++ rbChar :: rest))) =
        some (natToChars n ++ rbChar :: rest) := by
      simp [kElapsed, expectL]
    rw [hexp]
    simp only [Option.bind_eq_bind, Option.some_bind]
    rw [hd]
    simp only [List.cons_append]
    rw [if_pos hv]
    rw [← List.cons_append, ← hd, hrec 0 (rbChar :: rest)]
    simp only [Nat.zero_mul, Nat.zero_add]
    rw [parseDigits]
    rw [show digitVal rbChar = none from by decide]
    simp

/-- A serialized file entry is never empty. -/
theorem serFileEntry_length_pos (e : FileEntry) : 0 < (serFileEntry e).length := by
  simp [serFileEntry]

/-- The serialization of a file list is at least as long as the list. -/
theorem serFiles_length_ge (fs : List FileEntry) : fs.length ≤ (serFiles fs).length := by
  induction fs with
  | nil => simp [serFiles]
  | cons e t ih =>
    cases t with
    | nil => simpa [serFiles] using serFileEntry_length_pos e
    | cons f2 t2 =>
      have h1 := serFileEntry_length_pos e
      have h2 : serFiles (e :: f2 :: t2) = serFileEntry e ++ ',' :: serFiles (f2 :: t2) := rfl
      rw [h2]
      simp only [List.length_append, List.length_cons] at ih ⊢
      omega

/-- Parsing a serialized file list with enough fuel recovers it. -/
theorem parseFilesAux_ser (fs : List FileEntry) :
    ∀ (fuel : Nat) (rest : List Char), fs.length < fuel →
      parseFilesAux fuel (serFiles fs ++ ']' :: rest) = some (fs, rest) := by
  induction fs with
  | nil =>
    intro fuel rest hf
    cases fuel with
    | zero => omega
    | succ f =>
      rw [serFiles, List.nil_append]
      simp [parseFilesAux]
  | cons e t ih =>
    intro fuel rest hf
    cases fuel with
    | zero => omega
    | succ f =>
      obtain ⟨tl, htl⟩ : ∃ tl, serFileEntry e = lbChar :: tl := ⟨_, rfl⟩
      cases t with
      | nil =>
        show parseFilesAux (f + 1) (serFileEntry e ++ ']' :: rest) = some ([e], rest)
        rw [htl, List.cons_append]
        simp only [parseFilesAux]
        rw [if_neg (by decide : ¬ (lbChar = ']'))]
        rw [← List.cons_append, ← htl, parseFileEntry_ser]
        simp
      | cons f2 t2 =>
        show parseFilesAux (f + 1)
            ((serFileEntry e ++ ',' :: serFiles (f2 :: t2)) ++ ']' :: rest) =
          some (e :: f2 :: t2, rest)
        rw [List.append_assoc, List.cons_append, htl, List.cons_append]
        simp only [parseFilesAux]
        rw [if_neg (by decide : ¬ (lbChar = ']'))]
        rw [← List.cons_append, ← htl, parseFileEntry_ser]
        have hrec := ih f rest (by simp only [List.length_cons] at hf ⊢; omega)
        simp [hrec]

/-- Parsing a serialized file list with the parser's own fuel recovers it. -/
theorem parseFilesAux_ser_len (fs : List FileEntry) (tail : List Char) :
    parseFilesAux ((serFiles fs ++ ']' :: tail).length + 1) (serFiles fs ++ ']' :: tail) =
      some (fs, tail) := by
  apply parseFilesAux_ser
  have h := serFiles_length_ge fs
  simp only [List.length_append, List.length_cons]
  omega

/-- Parsing a serialized trace record recovers it. -/
theorem parseRecord_ser (r : TraceRecord) (rest : List Char) :
    parseRecord (serRecord r ++ rest) = some (r, rest) := by
  obtain ⟨idv, tsv, iid, tl, mc, fls, el⟩ := r
  simp only [serRecord, escStr, List.cons_append, List.append_assoc, List.nil_append]
  simp only [parseRecord, expectL_cons_append, expectL_append, parseStr_escape,
    Option.some_bind]
  simp only [parseFilesAux_ser_len, Option.some_bind]
  simp only [parseElapsed_ser, Option.map_some']

/-- Parsing one serialized ledger line recovers the record. -/
theorem parseLine_traceLine (r : TraceRecord) : parseLine (traceLine r) = some r := by
  unfold parseLine traceLine
  rw [show (String.mk (serRecord r)).data = serRecord r from rfl]
  have h := parseRecord_ser r []
  rw [List.append_nil] at h
  rw [h]

/-- A serialized ledger line is never blank. -/
theorem traceLine_ne_empty (r : TraceRecord) : ¬ (traceLine r = "") := by
  intro h
  have h2 := congrArg String.data h
  simp only [traceLine] at h2
  simp [serRecord] at h2

/-- Parsing every serialized line of a record list recovers the list. -/
theorem parseAllLines_map (rs : List TraceRecord) :
    parseAllLines (rs.map traceLine) = some rs := by
  induction rs with
  | nil => rfl
  | cons r t ih => simp [parseAllLines, parseLine_traceLine, ih]

/-! ## C8: the trace logger roundtrip -/

/-- C8: appending any sequence of trace records extends the ledger file by
their serialized lines in order without touching earlier lines (append-only);
`readAll` then returns records equal to the originals in append order, and
`entriesForIntent` is exactly the filter of `readAll` on the intent id. -/
theorem traceLogger_roundtrip (rs : List TraceRecord) (f0 : LedgerFile) (iid : String) :
    rs.foldl appendTrace f0 = f0 ++ rs.map traceLine ∧
    readAll (rs.foldl appendTrace []) = some rs ∧
    getEntriesForIntent (rs.foldl appendTrace []) iid =
      some (rs.filter fun r => r.intent_id = iid) := by
  have hfold : ∀ (l : List TraceRecord) (g : LedgerFile),
      l.foldl appendTrace g = g ++ l.map traceLine := by
    intro l
    induction l with
    | nil => intro g; simp
    | cons r t ih => intro g; simp [List.foldl_cons, appendTrace, ih]
  have hread : readAll (rs.foldl appendTrace []) = some rs := by
    rw [hfold rs [], List.nil_append]
    unfold readAll
    have hfilter : (rs.map traceLine).filter (fun l => !(l = "")) = rs.map traceLine := by
      rw [List.filter_eq_self]
      intro l hl
      obtain ⟨r, hr, rfl⟩ := List.mem_map.mp hl
      simp [traceLine_ne_empty r]
    rw [hfilter, parseAllLines_map]
  refine ⟨hfold rs f0, hread, ?_⟩
  unfold getEntriesForIntent
  rw [hread]
  simp
